import Mathlib

/-!
Verification of the Podcastify frontend (React single-page application).

The development shallowly embeds the pure logic of the repository:
  * `calculateTitleMatch`, the title/query similarity score
    (src/frontend/src/components/BookAutocomplete.jsx);
  * the result transformation pipeline of `fetchBooks` (scoring, filtering,
    stable sorting, duplicate removal, truncation);
  * the cache / abort-controller state machine of `fetchBooks`;
  * the debounced `handleInputChange` handler;
  * the typewriter placeholder effect;
  * the route table of main.jsx and the selection handler of App.jsx;
  * the sequential endpoint orchestration of `handleSummary`
    (src/frontend/src/pages/BookDetails.jsx);
  * `parseScript` (src/frontend/src/pages/AudioPlayer.jsx).

JavaScript strings are modelled as Lean `String`, with the character-level
operations (lower-casing, trimming, splitting) carried out on the underlying
`List Char` by structurally recursive functions, so that every definition
evaluates inside the kernel.  Numbers are modelled as `Int`/`ℚ`: the scores
involved are small rationals, far from any floating-point rounding.
-/

namespace Podcastify

/-- JS `String.prototype.toLowerCase` on the character list
(per-character case mapping, ASCII-faithful). -/
def jsLower (l : List Char) : List Char := l.map Char.toLower

/-- JS `String.prototype.trim` on the character list: remove leading and
trailing whitespace. -/
def jsTrim (l : List Char) : List Char :=
  ((l.dropWhile Char.isWhitespace).reverse.dropWhile Char.isWhitespace).reverse

/-- `s.toLowerCase().trim()` as used on both arguments of
`calculateTitleMatch`. -/
def jsNorm (s : String) : List Char := jsTrim (jsLower s.data)

/-- JS `a.startsWith(b)` on character lists. -/
def jsStartsWith (l p : List Char) : Bool := List.isPrefixOf p l

/-- JS `a.includes(b)` (substring containment) on character lists. -/
def jsIncludes (l p : List Char) : Bool :=
  (List.range (l.length + 1)).any (fun i => List.isPrefixOf p (l.drop i))

/-- Split a character list at whitespace, keeping the (possibly empty)
chunks between separators. -/
def splitWSAux : List Char → List Char → List (List Char)
  | [], acc => [acc.reverse]
  | c :: cs, acc =>
    if Char.isWhitespace c then acc.reverse :: splitWSAux cs []
    else splitWSAux cs (c :: acc)

/-- JS `str.split(/\s+/)` for a string with no leading or trailing
whitespace (every use site first applies `trim`): the whitespace-separated
words, except that the empty string yields `[""]` as in JS. -/
def jsSplitWS (l : List Char) : List (List Char) :=
  if l = [] then [[]]
  else (splitWSAux l []).filter (fun w => w ≠ [])

/-- Exact rational arithmetic for the JS numbers appearing in the scores.
A value is an explicit fraction `num / den`; operations are by
cross-multiplication and never normalize, so they evaluate inside the
kernel (`Rat`'s operations are irreducible).  Every fraction built by the
embedding has a positive denominator; `Frac.val` maps into `ℚ` for the
statements and proofs. -/
structure Frac where
  num : Int
  den : Nat
deriving DecidableEq, Repr

/-- The rational value of a fraction. -/
def Frac.val (a : Frac) : ℚ := (a.num : ℚ) / (a.den : ℚ)

/-- A JS integer literal as a fraction. -/
def Frac.ofInt (n : Int) : Frac := ⟨n, 1⟩

/-- JS `+` on exact fractions. -/
def Frac.add (a b : Frac) : Frac :=
  ⟨a.num * (b.den : Int) + b.num * (a.den : Int), a.den * b.den⟩

/-- JS `*` on exact fractions. -/
def Frac.mul (a b : Frac) : Frac := ⟨a.num * b.num, a.den * b.den⟩

/-- Collapse a zero denominator to the zero fraction.  Every fraction the
embedding builds has a positive denominator, where this is the identity; it
only makes the comparison below total and transitive on all of `Frac`
(mirroring the `x / 0 = 0` convention of `ℚ`, so `Frac.le` computes
`Frac.val ≤ Frac.val` unconditionally). -/
def Frac.norm0 (a : Frac) : Frac := if a.den = 0 then ⟨0, 1⟩ else a

/-- JS `<=` on exact fractions, by cross-multiplication. -/
def Frac.le (a b : Frac) : Bool :=
  (a.norm0).num * ((b.norm0).den : Int) ≤ (b.norm0).num * ((a.norm0).den : Int)

/-- JS `Math.min` on exact fractions. -/
def Frac.min (a b : Frac) : Frac := if a.le b then a else b

/-- JS `Math.round` on an exact fraction with positive denominator:
`Math.round x = ⌊x + 1/2⌋` (round half toward positive infinity), and
`⌊(n/d) + 1/2⌋ = (2*n + d) / (2*d)` in Euclidean integer division. -/
def Frac.roundJS (x : Frac) : Int := (2 * x.num + (x.den : Int)) / (2 * (x.den : Int))

/-- Positivity of the denominator, the well-formedness invariant of the
fractions the embedding builds. -/
def Frac.Pos (a : Frac) : Prop := 0 < a.den

/-- Whether some word of `titleWords` is exactly `qWord`
(the `break` on equality in the source makes `foundExact` exactly this). -/
def wordExact (titleWords : List (List Char)) (qWord : List Char) : Bool :=
  titleWords.any (fun tWord => tWord = qWord)

/-- Whether some word of `titleWords` is a one-sided extension of `qWord`
(`tWord.startsWith(qWord) || qWord.startsWith(tWord)` in the source). -/
def wordPartial (titleWords : List (List Char)) (qWord : List Char) : Bool :=
  titleWords.any (fun tWord => jsStartsWith tWord qWord || jsStartsWith qWord tWord)

/-- `calculateTitleMatch` from BookAutocomplete.jsx, lines 16–65.
`!title || !query` is empty-string falsiness for string arguments. -/
def calculateTitleMatch (title query : String) : Int :=
  if title = "" ∨ query = "" then 0
  else
    let normalizedTitle := jsNorm title
    let normalizedQuery := jsNorm query
    if normalizedTitle = normalizedQuery then 100
    else if jsStartsWith normalizedTitle normalizedQuery then 95
    else if jsStartsWith normalizedQuery normalizedTitle then 90
    else if jsIncludes normalizedTitle normalizedQuery then 85
    else
      let queryWords := (jsSplitWS normalizedQuery).filter (fun w => w.length > 1)
      let titleWords := jsSplitWS normalizedTitle
      if queryWords.length = 0 then 0
      else
        let matchedWords := (queryWords.filter (fun w => wordExact titleWords w)).length
        let partialMatches :=
          (queryWords.filter
            (fun w => !(wordExact titleWords w) && wordPartial titleWords w)).length
        let exactFrac : Frac := ⟨matchedWords, queryWords.length⟩
        let partialFrac : Frac := ⟨partialMatches, queryWords.length⟩
        Frac.roundJS
          ((exactFrac.mul (Frac.ofInt 70)).add (partialFrac.mul (Frac.ofInt 20)))

/-! ### Bridge lemmas: `Frac` against `ℚ` -/

theorem Frac.val_ofInt (n : Int) : (Frac.ofInt n).val = (n : ℚ) := by
  simp [Frac.val, Frac.ofInt]

theorem Frac.val_mul (a b : Frac) : (a.mul b).val = a.val * b.val := by
  simp only [Frac.val, Frac.mul]
  push_cast
  rw [div_mul_div_comm]

theorem Frac.val_add (a b : Frac) (ha : 0 < a.den) (hb : 0 < b.den) :
    (a.add b).val = a.val + b.val := by
  have ha' : ((a.den : ℚ)) ≠ 0 := by positivity
  have hb' : ((b.den : ℚ)) ≠ 0 := by positivity
  simp only [Frac.val, Frac.add]
  push_cast
  field_simp

theorem Frac.val_norm0 (a : Frac) : a.norm0.val = a.val := by
  unfold Frac.norm0
  split_ifs with h
  · simp [Frac.val, h]
  · rfl

theorem Frac.den_norm0_pos (a : Frac) : 0 < a.norm0.den := by
  unfold Frac.norm0
  split_ifs with h
  · norm_num
  · omega

theorem Frac.le_iff (a b : Frac) : a.le b = true ↔ a.val ≤ b.val := by
  rw [← Frac.val_norm0 a, ← Frac.val_norm0 b]
  have ha' : (0 : ℚ) < ((a.norm0.den : ℕ) : ℚ) := by
    exact_mod_cast Frac.den_norm0_pos a
  have hb' : (0 : ℚ) < ((b.norm0.den : ℕ) : ℚ) := by
    exact_mod_cast Frac.den_norm0_pos b
  simp only [Frac.le, Frac.val, decide_eq_true_eq, div_le_div_iff₀ ha' hb']
  constructor
  · intro h
    exact_mod_cast h
  · intro h
    exact_mod_cast h

theorem Frac.roundJS_eq (x : Frac) (h : 0 < x.den) : x.roundJS = ⌊x.val + 1 / 2⌋ := by
  have hd : ((x.den : ℚ)) ≠ 0 := by positivity
  have hval : x.val + 1 / 2 = ((2 * x.num + (x.den : Int) : Int) : ℚ) / ((2 * x.den : ℕ) : ℚ) := by
    push_cast
    field_simp [Frac.val]
    ring
  rw [hval, Rat.floor_intCast_div_natCast, Frac.roundJS]
  congr 1

/-- The two disjoint word-counting filters of `calculateTitleMatch` together
keep at most every query word. -/
theorem length_filter_disjoint {α : Type} (l : List α) (p q : α → Bool) :
    (l.filter p).length + (l.filter (fun a => !(p a) && q a)).length ≤ l.length := by
  induction l with
  | nil => simp
  | cons a t ih =>
    by_cases hp : p a <;> by_cases hq : q a <;> simp [hp, hq] <;> omega

/-- Bounds for the word-matching branch of `calculateTitleMatch`:
if `m` exact matches and `p` partial matches are counted among `n > 0`
query words with `m + p ≤ n`, the rounded score lies in `[0, 70]`. -/
theorem wordScore_bounds (m p n : ℕ) (hn : 0 < n) (hmp : m + p ≤ n) :
    0 ≤ Frac.roundJS ((Frac.mul ⟨(m : Int), n⟩ (Frac.ofInt 70)).add
        (Frac.mul ⟨(p : Int), n⟩ (Frac.ofInt 20)))
    ∧ Frac.roundJS ((Frac.mul ⟨(m : Int), n⟩ (Frac.ofInt 70)).add
        (Frac.mul ⟨(p : Int), n⟩ (Frac.ofInt 20))) ≤ 70 := by
  have hden1 : 0 < (Frac.mul ⟨(m : Int), n⟩ (Frac.ofInt 70)).den := by
    simp [Frac.mul, Frac.ofInt]
    omega
  have hden2 : 0 < (Frac.mul ⟨(p : Int), n⟩ (Frac.ofInt 20)).den := by
    simp [Frac.mul, Frac.ofInt]
    omega
  have hden : 0 < ((Frac.mul ⟨(m : Int), n⟩ (Frac.ofInt 70)).add
      (Frac.mul ⟨(p : Int), n⟩ (Frac.ofInt 20))).den := by
    simp [Frac.add, Frac.mul, Frac.ofInt]
    omega
  rw [Frac.roundJS_eq _ hden,
    Frac.val_add _ _ hden1 hden2, Frac.val_mul, Frac.val_mul,
    Frac.val_ofInt, Frac.val_ofInt]
  push_cast
  have hnq : (0 : ℚ) < (n : ℚ) := by exact_mod_cast hn
  have hv1 : (0 : ℚ) ≤ (Frac.val ⟨(m : Int), n⟩) := by
    simp only [Frac.val]
    positivity
  have hv2 : (0 : ℚ) ≤ (Frac.val ⟨(p : Int), n⟩) := by
    simp only [Frac.val]
    positivity
  have hsum : Frac.val ⟨(m : Int), n⟩ * 70 + Frac.val ⟨(p : Int), n⟩ * 20 ≤ 70 := by
    simp only [Frac.val]
    rw [div_mul_eq_mul_div, div_mul_eq_mul_div, div_add_div_same, div_le_iff₀ hnq]
    push_cast
    have hm : (m : ℚ) + (p : ℚ) ≤ (n : ℚ) := by exact_mod_cast hmp
    nlinarith
  constructor
  · rw [Int.le_floor]
    push_cast
    linarith
  · have hlt : ⌊(Frac.val ⟨(m : Int), n⟩ * 70 + Frac.val ⟨(p : Int), n⟩ * 20) + 1 / 2⌋
        < (71 : ℤ) := by
      rw [Int.floor_lt]
      push_cast
      linarith
    omega

/-- When the normalized title and query differ (and neither argument is
empty), the score is between `0` and `95`. -/
theorem calculateTitleMatch_le_95 (title query : String)
    (h1 : ¬(title = "" ∨ query = "")) (h2 : jsNorm title ≠ jsNorm query) :
    0 ≤ calculateTitleMatch title query ∧ calculateTitleMatch title query ≤ 95 := by
  simp only [calculateTitleMatch, if_neg h1, if_neg h2]
  split_ifs with h3 h4 h5 h6
  · exact ⟨by norm_num, by norm_num⟩
  · exact ⟨by norm_num, by norm_num⟩
  · exact ⟨by norm_num, by norm_num⟩
  · exact ⟨by norm_num, by norm_num⟩
  · have hn : 0 <
        ((jsSplitWS (jsNorm query)).filter (fun w => w.length > 1)).length :=
      Nat.pos_of_ne_zero h6
    have hb := wordScore_bounds
      ((((jsSplitWS (jsNorm query)).filter (fun w => w.length > 1)).filter
        (fun w => wordExact (jsSplitWS (jsNorm title)) w)).length)
      ((((jsSplitWS (jsNorm query)).filter (fun w => w.length > 1)).filter
        (fun w => !(wordExact (jsSplitWS (jsNorm title)) w) &&
          wordPartial (jsSplitWS (jsNorm title)) w)).length)
      (((jsSplitWS (jsNorm query)).filter (fun w => w.length > 1)).length)
      hn
      (length_filter_disjoint _ _ _)
    exact ⟨hb.1, le_trans hb.2 (by norm_num)⟩

/-- C1: `calculateTitleMatch(title, query)` always returns an integer score
in `[0, 100]`; it returns `0` when either argument is empty; for non-empty
arguments it returns `100` exactly when the lower-cased trimmed title
equals the lower-cased trimmed query, and otherwise at most `95`. -/
theorem calculateTitleMatch_score_spec (title query : String) :
    (0 ≤ calculateTitleMatch title query ∧ calculateTitleMatch title query ≤ 100)
    ∧ (title = "" ∨ query = "" → calculateTitleMatch title query = 0)
    ∧ (title ≠ "" → query ≠ "" →
        (calculateTitleMatch title query = 100 ↔ jsNorm title = jsNorm query))
    ∧ (title ≠ "" → query ≠ "" → jsNorm title ≠ jsNorm query →
        calculateTitleMatch title query ≤ 95) := by
  by_cases hempty : title = "" ∨ query = ""
  · have hr : calculateTitleMatch title query = 0 := by
      simp [calculateTitleMatch, hempty]
    refine ⟨⟨by omega, by omega⟩, fun _ => hr, ?_, ?_⟩
    · intro ht hq
      exact absurd hempty (by simp [ht, hq])
    · intro ht hq
      exact absurd hempty (by simp [ht, hq])
  · by_cases heq : jsNorm title = jsNorm query
    · have hr : calculateTitleMatch title query = 100 := by
        simp [calculateTitleMatch, hempty, heq]
      refine ⟨⟨by omega, by omega⟩, fun h => absurd h hempty, ?_, ?_⟩
      · exact fun _ _ => ⟨fun _ => heq, fun _ => hr⟩
      · exact fun _ _ hne => absurd heq hne
    · have hr := calculateTitleMatch_le_95 title query hempty heq
      refine ⟨⟨hr.1, by omega⟩, fun h => absurd h hempty, ?_, fun _ _ _ => hr.2⟩
      intro _ _
      constructor
      · intro h100
        omega
      · intro h
        exact absurd h heq

theorem calculateTitleMatch_score_spec_witness :
    calculateTitleMatch "Dune" " DUNE " = 100 ∧
      calculateTitleMatch "Dune Messiah" "dune" ≤ 95 :=
  ⟨((calculateTitleMatch_score_spec "Dune" " DUNE ").2.2.1
      (by decide) (by decide)).mpr (by decide),
   (calculateTitleMatch_score_spec "Dune Messiah" "dune").2.2.2
      (by decide) (by decide) (by decide)⟩

/-! ### The suggestion pipeline of `fetchBooks` -/

/-- A document of the Open Library search response, restricted to the
fields `fetchBooks` requests.  `Option` models absent JSON fields; the
ratings average (a JSON decimal) is an exact fraction. -/
structure Doc where
  title : String
  author_name : Option (List String)
  first_publish_year : Option Int
  key : String
  cover_i : Option Int
  isbn : Option (List String)
  edition_count : Option Int
  ratings_average : Option Frac
deriving DecidableEq, Repr

/-- JS truthiness of an optional numeric field
(`undefined`, `null` and `0` are falsy). -/
def jsTruthyInt : Option Int → Bool
  | none => false
  | some n => n ≠ 0

/-- A scored suggestion entry, as built by the `map` step of `fetchBooks`
(BookAutocomplete.jsx lines 176–195). -/
structure Suggestion where
  key : String
  title : String
  authors : String
  year : Option Int
  cover_i : Option Int
  isbn : Option (List String)
  editionCount : Int
  score : Frac
  titleScore : Int
deriving DecidableEq, Repr

/-- `book.author_name?.join(', ') || 'Unknown author'` (an empty join is
falsy and also falls back). -/
def joinAuthors : Option (List String) → String
  | none => "Unknown author"
  | some l =>
    let j := String.intercalate ", " l
    if j = "" then "Unknown author" else j

/-- The anonymous arrow function of the `map` step of `fetchBooks`:
score a document against the cleaned query and reshape it. -/
def mapBook (cleanQuery : String) (book : Doc) : Suggestion :=
  let titleScore := calculateTitleMatch book.title cleanQuery
  let popularityScore :=
    (Frac.min ⟨book.edition_count.getD 0, 100⟩ (Frac.ofInt 1)).mul (Frac.ofInt 20)
  let ratingScore := (book.ratings_average.getD (Frac.ofInt 0)).mul (Frac.ofInt 2)
  let hasYear := Frac.ofInt (if jsTruthyInt book.first_publish_year then 5 else 0)
  let hasCover := Frac.ofInt (if jsTruthyInt book.cover_i then 5 else 0)
  { key := book.key
    title := book.title
    authors := joinAuthors book.author_name
    year := if jsTruthyInt book.first_publish_year then book.first_publish_year else none
    cover_i := if jsTruthyInt book.cover_i then book.cover_i else none
    isbn := book.isbn
    editionCount := book.edition_count.getD 0
    score := ((((Frac.ofInt titleScore).add popularityScore).add ratingScore).add
      hasYear).add hasCover
    titleScore := titleScore }

/-- The `filter` step: keep entries with a reasonable title match or a very
popular book (`book.titleScore >= 20 || book.editionCount > 50`). -/
def passFilter (b : Suggestion) : Bool := 20 ≤ b.titleScore || 50 < b.editionCount

/-- The sort comparator `(a, b) => b.score - a.score`: `a` may stay before
`b` exactly when `b.score <= a.score` (descending by combined score; JS
`Array.prototype.sort` is stable). -/
def suggLe (a b : Suggestion) : Bool := Frac.le b.score a.score

/-- The normalized title used to detect duplicate editions:
`title.toLowerCase().replace(/[^\w\s]/g, '')` (drop every character that is
neither an ASCII word character nor whitespace). -/
def normTitleKey (t : String) : List Char :=
  (jsLower t.data).filter (fun c => c.isAlphanum || c = '_' || c.isWhitespace)

/-- The duplicate-removal `filter((book, index, arr) => index ===
arr.findIndex(b => ... === normalizedTitle))`: keep exactly the first entry
with each normalized title, here computed with an accumulator of titles
already seen (so that the recursion is structural). -/
def dedupByTitleAux (seen : List (List Char)) : List Suggestion → List Suggestion
  | [] => []
  | x :: xs =>
    if normTitleKey x.title ∈ seen then dedupByTitleAux seen xs
    else x :: dedupByTitleAux (normTitleKey x.title :: seen) xs

/-- Keep the first entry with each normalized title. -/
def dedupByTitle (l : List Suggestion) : List Suggestion := dedupByTitleAux [] l

/-- The sort step `.sort((a, b) => b.score - a.score)`: JS
`Array.prototype.sort` is a stable sort, and the stable sort of a list by a
total preorder is unique, so it is computed here by stable insertion sort
(which also evaluates inside the kernel). -/
def sortByScore (l : List Suggestion) : List Suggestion :=
  l.insertionSort (fun a b => suggLe a b = true)

/-- The whole result pipeline of `fetchBooks` (BookAutocomplete.jsx lines
174–208): map to scored entries, filter, sort descending by combined score,
remove duplicate titles, take the top 6. -/
def fetchResults (docs : List Doc) (cleanQuery : String) : List Suggestion :=
  (dedupByTitle (sortByScore ((docs.map (mapBook cleanQuery)).filter
    passFilter))).take 6

theorem suggLe_total (a b : Suggestion) : suggLe a b = true ∨ suggLe b a = true := by
  simp only [suggLe, Frac.le_iff]
  exact le_total b.score.val a.score.val

theorem suggLe_trans (a b c : Suggestion) (h1 : suggLe a b = true)
    (h2 : suggLe b c = true) : suggLe a c = true := by
  simp only [suggLe, Frac.le_iff] at h1 h2 ⊢
  exact le_trans h2 h1

instance : IsTotal Suggestion (fun a b => suggLe a b = true) := ⟨suggLe_total⟩

instance : IsTrans Suggestion (fun a b => suggLe a b = true) := ⟨suggLe_trans⟩

theorem sortByScore_sorted (l : List Suggestion) :
    (sortByScore l).Pairwise (fun a b => b.score.val ≤ a.score.val) :=
  (List.sorted_insertionSort (fun a b => suggLe a b = true) l).imp
    (fun h => (Frac.le_iff _ _).mp h)

theorem sortByScore_perm (l : List Suggestion) : List.Perm (sortByScore l) l :=
  List.perm_insertionSort _ l

theorem dedupByTitleAux_sublist (l : List Suggestion) :
    ∀ seen : List (List Char), List.Sublist (dedupByTitleAux seen l) l := by
  induction l with
  | nil =>
    intro seen
    simp [dedupByTitleAux]
  | cons x xs ih =>
    intro seen
    simp only [dedupByTitleAux]
    split_ifs with h
    · exact (ih seen).cons x
    · exact (ih _).cons₂ x

theorem mem_dedupByTitleAux (l : List Suggestion) :
    ∀ (seen : List (List Char)) (y : Suggestion), y ∈ dedupByTitleAux seen l →
      y ∈ l ∧ normTitleKey y.title ∉ seen := by
  induction l with
  | nil =>
    intro seen y h
    simp [dedupByTitleAux] at h
  | cons x xs ih =>
    intro seen y h
    simp only [dedupByTitleAux] at h
    split_ifs at h with hx
    · obtain ⟨h1, h2⟩ := ih seen y h
      exact ⟨List.mem_cons_of_mem _ h1, h2⟩
    · rcases List.mem_cons.mp h with rfl | hy
      · exact ⟨List.mem_cons_self _ _, hx⟩
      · obtain ⟨h1, h2⟩ := ih _ y hy
        exact ⟨List.mem_cons_of_mem _ h1,
          fun hc => h2 (List.mem_cons_of_mem _ hc)⟩

theorem dedupByTitleAux_pairwise (l : List Suggestion) :
    ∀ seen : List (List Char),
      (dedupByTitleAux seen l).Pairwise
        (fun a b => normTitleKey a.title ≠ normTitleKey b.title) := by
  induction l with
  | nil =>
    intro seen
    simp [dedupByTitleAux]
  | cons x xs ih =>
    intro seen
    simp only [dedupByTitleAux]
    split_ifs with hx
    · exact ih seen
    · refine List.Pairwise.cons ?_ (ih _)
      intro b hb hEq
      exact (mem_dedupByTitleAux _ _ _ hb).2 (hEq ▸ List.mem_cons_self _ _)

/-- On a list sorted in non-increasing score order, the entry kept for each
normalized title has the greatest score among entries with that title. -/
theorem dedupByTitleAux_keeps_first (l : List Suggestion) :
    ∀ seen : List (List Char),
      l.Pairwise (fun a b => b.score.val ≤ a.score.val) →
      ∀ x ∈ dedupByTitleAux seen l, ∀ y ∈ l,
        normTitleKey y.title = normTitleKey x.title →
          y.score.val ≤ x.score.val := by
  induction l with
  | nil =>
    intro seen _ x _ y hy
    simp at hy
  | cons z zs ih =>
    intro seen hs x hx y hy ht
    obtain ⟨hz, hs'⟩ := List.pairwise_cons.mp hs
    simp only [dedupByTitleAux] at hx
    split_ifs at hx with hzSeen
    · rcases List.mem_cons.mp hy with rfl | hy'
      · exact absurd (ht ▸ hzSeen) (mem_dedupByTitleAux _ _ _ hx).2
      · exact ih seen hs' x hx y hy' ht
    · rcases List.mem_cons.mp hx with rfl | hx'
      · rcases List.mem_cons.mp hy with rfl | hy'
        · exact le_refl _
        · exact hz y hy'
      · rcases List.mem_cons.mp hy with rfl | hy'
        · exact absurd (ht ▸ List.mem_cons_self _ _)
            (mem_dedupByTitleAux _ _ _ hx').2
        · exact ih _ hs' x hx' y hy' ht

/-- Every normalized title occurring in the input is represented in the
deduplicated output. -/
theorem dedupByTitleAux_complete (l : List Suggestion) :
    ∀ (seen : List (List Char)) (c : Suggestion), c ∈ l →
      normTitleKey c.title ∉ seen →
      ∃ b ∈ dedupByTitleAux seen l,
        normTitleKey b.title = normTitleKey c.title := by
  induction l with
  | nil =>
    intro seen c hc
    simp at hc
  | cons z zs ih =>
    intro seen c hc hns
    simp only [dedupByTitleAux]
    split_ifs with hzSeen
    · rcases List.mem_cons.mp hc with rfl | hc'
      · exact absurd hzSeen hns
      · exact ih seen c hc' hns
    · by_cases hEq : normTitleKey c.title = normTitleKey z.title
      · exact ⟨z, List.mem_cons_self _ _, hEq.symm⟩
      · rcases List.mem_cons.mp hc with rfl | hc'
        · exact absurd rfl hEq
        · obtain ⟨b, hb, hbt⟩ := ih (normTitleKey z.title :: seen) c hc'
            (by
              intro hmem
              rcases List.mem_cons.mp hmem with h | h
              · exact hEq h
              · exact hns h)
          exact ⟨b, List.mem_cons_of_mem _ hb, hbt⟩

/-- C2: the suggestion list built by `fetchBooks` from the documents of a
search response contains only (transformed) documents passing the
title-match-at-least-20-or-more-than-50-editions filter; it is sorted in
non-increasing order of combined score; normalized titles are pairwise
distinct, each kept entry scoring at least every filtered entry with the
same normalized title (the first, highest-scored occurrence); it has at
most 6 entries, and when it has fewer than 6 the normalized title of every
filtered document is represented. -/
theorem fetchBooks_results_spec (docs : List Doc) (cleanQuery : String) :
    (fetchResults docs cleanQuery).length ≤ 6
    ∧ (∀ b ∈ fetchResults docs cleanQuery,
        passFilter b = true ∧ ∃ d ∈ docs, b = mapBook cleanQuery d)
    ∧ (fetchResults docs cleanQuery).Pairwise
        (fun a b => b.score.val ≤ a.score.val)
    ∧ (fetchResults docs cleanQuery).Pairwise
        (fun a b => normTitleKey a.title ≠ normTitleKey b.title)
    ∧ (∀ b ∈ fetchResults docs cleanQuery,
        ∀ c ∈ (docs.map (mapBook cleanQuery)).filter passFilter,
          normTitleKey c.title = normTitleKey b.title →
            c.score.val ≤ b.score.val)
    ∧ (∀ c ∈ (docs.map (mapBook cleanQuery)).filter passFilter,
        (fetchResults docs cleanQuery).length < 6 →
          ∃ b ∈ fetchResults docs cleanQuery,
            normTitleKey b.title = normTitleKey c.title) := by
  have hres : fetchResults docs cleanQuery
      = (dedupByTitle (sortByScore ((docs.map (mapBook cleanQuery)).filter
          passFilter))).take 6 := rfl
  set S := sortByScore ((docs.map (mapBook cleanQuery)).filter passFilter)
    with hS
  have hsub : List.Sublist (fetchResults docs cleanQuery) S := by
    rw [hres]
    exact (List.take_sublist _ _).trans (dedupByTitleAux_sublist S [])
  have hmemS : ∀ b ∈ fetchResults docs cleanQuery,
      b ∈ (docs.map (mapBook cleanQuery)).filter passFilter := by
    intro b hb
    exact (sortByScore_perm _).mem_iff.mp (hsub.subset hb)
  refine ⟨?_, ?_, ?_, ?_, ?_, ?_⟩
  · rw [hres]
    exact List.length_take_le 6 _
  · intro b hb
    obtain ⟨hmap, hpass⟩ := List.mem_filter.mp (hmemS b hb)
    obtain ⟨d, hd, hdb⟩ := List.mem_map.mp hmap
    exact ⟨hpass, d, hd, hdb.symm⟩
  · exact (sortByScore_sorted _).sublist hsub
  · rw [hres]
    exact (dedupByTitleAux_pairwise S []).sublist (List.take_sublist _ _)
  · intro b hb c hc ht
    have hbDedup : b ∈ dedupByTitle S := by
      rw [hres] at hb
      exact (List.take_sublist _ _).subset hb
    have hcS : c ∈ S := (sortByScore_perm _).mem_iff.mpr hc
    exact dedupByTitleAux_keeps_first S [] (sortByScore_sorted _) b hbDedup c hcS ht
  · intro c hc hlen
    have hcS : c ∈ S := (sortByScore_perm _).mem_iff.mpr hc
    obtain ⟨b, hb, hbt⟩ := dedupByTitleAux_complete S [] c hcS (by simp)
    refine ⟨b, ?_, hbt⟩
    rw [hres] at hlen ⊢
    have htake : (dedupByTitle S).length < 6 := by
      by_contra hge
      push_neg at hge
      rw [List.length_take] at hlen
      omega
    rw [List.take_of_length_le (le_of_lt htake)]
    exact hb

/-- A concrete search document used to witness the pipeline theorems. -/
def docDune : Doc :=
  ⟨"Dune", some ["Frank Herbert"], some 1965, "/works/OL893415W",
    some 11481354, none, some 120, some ⟨43, 10⟩⟩

/-- A lower-scored edition whose normalized title collides with `docDune`. -/
def docDuneDup : Doc :=
  ⟨"Dune!!!", some ["Frank Herbert"], some 1966, "/works/OL2W",
    none, none, some 60, none⟩

/-- A document that fails the relevance filter. -/
def docCooking : Doc :=
  ⟨"Cooking", none, none, "/works/OL3W", none, none, some 10, none⟩

/-- A matching sequel document. -/
def docMessiah : Doc :=
  ⟨"Dune Messiah", some ["Frank Herbert"], some 1969, "/works/OL4W",
    some 99, none, some 40, some ⟨39, 10⟩⟩

theorem fetchBooks_results_spec_witness :
    passFilter (mapBook "dune" docDune) = true ∧
      ∃ d ∈ [docCooking, docDuneDup, docDune, docMessiah],
        mapBook "dune" docDune = mapBook "dune" d :=
  (fetchBooks_results_spec [docCooking, docDuneDup, docDune, docMessiah]
      "dune").2.1 (mapBook "dune" docDune) (by decide)

/-! ### The cache / in-flight-request state machine of `fetchBooks` -/

/-- The module-level state touched by a `fetchBooks` call: the module-level
`searchCache` map (modelled as an association list, most recent binding
first, as `Map.set` overwrites) and `abortControllerRef.current` (the
identifier of the most recently created request, if any). -/
structure FetchState where
  cache : List (String × List Suggestion)
  inFlight : Option Nat
deriving DecidableEq, Repr

/-- The observable effects of one `fetchBooks` call, in program order. -/
inductive FetchEvent where
  | cacheHit (key : String)
  | abortRequest (id : Nat)
  | startRequest (id : Nat) (query : String)
deriving DecidableEq, Repr

/-- The network outcome of the request a `fetchBooks` call issues. -/
inductive NetResult where
  | success (docs : List Doc)
  | failure
  | aborted
deriving DecidableEq, Repr

/-- The result of one `fetchBooks` call: the successor state, the ordered
event list, the argument of the `setSuggestions` call (if one is made),
whether `setIsOpen(true)` is reached, and the final loading flag (the
`finally` block always clears it). -/
structure FetchOutcome where
  state : FetchState
  events : List FetchEvent
  suggestionsSet : Option (List Suggestion)
  openSet : Bool
  isLoading : Bool
deriving DecidableEq, Repr

/-- `fetchBooks` from BookAutocomplete.jsx, lines 137–223, as a state
transition.  `newId` identifies the `AbortController` a non-cached call
creates; `net` is the outcome of its network request. -/
def fetchBooks (st : FetchState) (searchQuery : String) (newId : Nat)
    (net : NetResult) : FetchOutcome :=
  let cleanQuery := String.mk (jsTrim searchQuery.data)
  let cacheKey := jsLower cleanQuery.data
  match st.cache.find? (fun kv => kv.1.data = cacheKey) with
  | some kv =>
    { state := st
      events := [.cacheHit kv.1]
      suggestionsSet := some kv.2
      openSet := true
      isLoading := false }
  | none =>
    let abortEvents : List FetchEvent :=
      match st.inFlight with
      | some id => [.abortRequest id]
      | none => []
    let events := abortEvents ++ [.startRequest newId cleanQuery]
    match net with
    | .success docs =>
      let results := fetchResults docs cleanQuery
      { state :=
          { cache := (String.mk cacheKey, results) :: st.cache
            inFlight := some newId }
        events := events
        suggestionsSet := some results
        openSet := true
        isLoading := false }
    | .failure =>
      { state := { st with inFlight := some newId }
        events := events
        suggestionsSet := some []
        openSet := false
        isLoading := false }
    | .aborted =>
      { state := { st with inFlight := some newId }
        events := events
        suggestionsSet := none
        openSet := false
        isLoading := false }

/-- C5: a `fetchBooks` call that hits the cache issues no network events at
all; a call that misses the cache aborts the previously in-flight request
(when one exists) before starting its single new request, which becomes the
unique in-flight request. -/
theorem fetchBooks_single_flight (st : FetchState) (q : String) (newId : Nat)
    (net : NetResult) :
    (∀ kv, st.cache.find? (fun kv => kv.1.data = jsLower (jsTrim q.data)) =
        some kv →
        (fetchBooks st q newId net).events = [FetchEvent.cacheHit kv.1])
    ∧ (st.cache.find? (fun kv => kv.1.data = jsLower (jsTrim q.data)) = none →
        (fetchBooks st q newId net).events =
          (match st.inFlight with
           | some r => [FetchEvent.abortRequest r,
               FetchEvent.startRequest newId (String.mk (jsTrim q.data))]
           | none => [FetchEvent.startRequest newId (String.mk (jsTrim q.data))])
        ∧ (fetchBooks st q newId net).state.inFlight = some newId) := by
  constructor
  · intro kv hkv
    simp [fetchBooks, hkv]
  · intro hnone
    cases hin : st.inFlight <;> cases net <;>
      simp [fetchBooks, hnone, hin]

theorem fetchBooks_single_flight_witness :
    (fetchBooks ⟨[], some 7⟩ "dune" 9 NetResult.failure).events =
      [FetchEvent.abortRequest 7, FetchEvent.startRequest 9 "dune"]
    ∧ (fetchBooks ⟨[], some 7⟩ "dune" 9 NetResult.failure).state.inFlight =
      some 9 :=
  (fetchBooks_single_flight ⟨[], some 7⟩ "dune" 9 NetResult.failure).2
    (by decide)

/-- A cache entry, once present, is found unchanged after any further
`fetchBooks` call: the cache only grows, and no shadowing entry for the
same key can be prepended, because a call for that key hits the cache and
leaves it unchanged. -/
theorem fetchBooks_preserves_cache (st : FetchState) (q : String)
    (id : Nat) (net : NetResult) (K : List Char)
    (kv : String × List Suggestion)
    (h : st.cache.find? (fun kv => kv.1.data = K) = some kv) :
    (fetchBooks st q id net).state.cache.find?
      (fun kv => kv.1.data = K) = some kv := by
  rcases hfind : st.cache.find?
      (fun kv => kv.1.data = jsLower (jsTrim q.data)) with _ | kv2
  · have hne : ¬ jsLower (jsTrim q.data) = K := by
      intro hKeq
      rw [hKeq, h] at hfind
      cases hfind
    cases net <;> simp [fetchBooks, hfind, List.find?_cons, hne, h]
  · simp [fetchBooks, hfind, h]

/-- C9: after a `fetchBooks` call succeeds for some query, any later call
whose trimmed lower-cased query is the same hits the cache: it sets the same
suggestion list, issues a single cache-hit event (no request is started and
none is aborted), leaves the state unchanged and opens the dropdown —
and the cache entry for that query survives every intervening
`fetchBooks` call, so this holds for every later equivalent call. -/
theorem fetchBooks_cache_idempotent (st : FetchState) (q q2 : String)
    (id1 id2 : Nat) (docs : List Doc) (net2 : NetResult)
    (hq : jsLower (jsTrim q2.data) = jsLower (jsTrim q.data)) :
    (fetchBooks (fetchBooks st q id1 (NetResult.success docs)).state q2 id2
        net2).suggestionsSet =
      (fetchBooks st q id1 (NetResult.success docs)).suggestionsSet
    ∧ (∃ k, (fetchBooks (fetchBooks st q id1 (NetResult.success docs)).state
        q2 id2 net2).events = [FetchEvent.cacheHit k])
    ∧ (fetchBooks (fetchBooks st q id1 (NetResult.success docs)).state q2 id2
        net2).state =
      (fetchBooks st q id1 (NetResult.success docs)).state
    ∧ (fetchBooks (fetchBooks st q id1 (NetResult.success docs)).state q2 id2
        net2).openSet = true
    ∧ (∀ (st3 : FetchState) (q3 : String) (id3 : Nat) (net3 : NetResult) kv,
        st3.cache.find? (fun kv => kv.1.data = jsLower (jsTrim q.data)) =
          some kv →
        (fetchBooks st3 q3 id3 net3).state.cache.find?
          (fun kv => kv.1.data = jsLower (jsTrim q.data)) = some kv) := by
  have hpres : ∀ (st3 : FetchState) (q3 : String) (id3 : Nat)
      (net3 : NetResult) kv,
      st3.cache.find? (fun kv => kv.1.data = jsLower (jsTrim q.data)) =
        some kv →
      (fetchBooks st3 q3 id3 net3).state.cache.find?
        (fun kv => kv.1.data = jsLower (jsTrim q.data)) = some kv :=
    fun st3 q3 id3 net3 kv h =>
      fetchBooks_preserves_cache st3 q3 id3 net3 _ kv h
  rcases hfind : st.cache.find? (fun kv => kv.1.data = jsLower (jsTrim q.data))
    with _ | kv
  · -- first call misses the cache and stores its results at the front
    have hstate : (fetchBooks st q id1 (NetResult.success docs)).state =
        ⟨(String.mk (jsLower (jsTrim q.data)),
            fetchResults docs (String.mk (jsTrim q.data))) :: st.cache,
          some id1⟩ := by
      simp [fetchBooks, hfind]
    have h1 : (fetchBooks st q id1 (NetResult.success docs)).suggestionsSet =
        some (fetchResults docs (String.mk (jsTrim q.data))) := by
      simp [fetchBooks, hfind]
    have hfind2 : (((String.mk (jsLower (jsTrim q.data)),
          fetchResults docs (String.mk (jsTrim q.data))) :: st.cache).find?
        (fun kv => kv.1.data = jsLower (jsTrim q2.data))) =
        some (String.mk (jsLower (jsTrim q.data)),
          fetchResults docs (String.mk (jsTrim q.data))) := by
      simp [List.find?_cons, hq]
    rw [hstate, h1]
    refine ⟨?_, ⟨String.mk (jsLower (jsTrim q.data)), ?_⟩, ?_, ?_, hpres⟩ <;>
      simp [fetchBooks, hfind2]
  · -- first call already hits the cache, which is left unchanged
    have hstate : (fetchBooks st q id1 (NetResult.success docs)).state = st := by
      simp [fetchBooks, hfind]
    have h1 : (fetchBooks st q id1 (NetResult.success docs)).suggestionsSet =
        some kv.2 := by
      simp [fetchBooks, hfind]
    have hfind2 : st.cache.find?
        (fun kv => kv.1.data = jsLower (jsTrim q2.data)) = some kv := by
      rw [show (fun (kv : String × List Suggestion) =>
          decide (kv.1.data = jsLower (jsTrim q2.data))) = (fun kv =>
          decide (kv.1.data = jsLower (jsTrim q.data))) from by
        funext kv
        rw [hq]]
      exact hfind
    rw [hstate, h1]
    refine ⟨?_, ⟨kv.1, ?_⟩, ?_, ?_, hpres⟩ <;>
      simp [fetchBooks, hfind2]

theorem fetchBooks_cache_idempotent_witness :
    (fetchBooks (fetchBooks ⟨[], none⟩ "Dune " 1
        (NetResult.success [docDune])).state " dUNE" 2
        NetResult.failure).suggestionsSet =
      (fetchBooks ⟨[], none⟩ "Dune " 1
        (NetResult.success [docDune])).suggestionsSet
    ∧ (∃ k, (fetchBooks (fetchBooks ⟨[], none⟩ "Dune " 1
        (NetResult.success [docDune])).state " dUNE" 2
        NetResult.failure).events = [FetchEvent.cacheHit k])
    ∧ (fetchBooks (fetchBooks ⟨[], none⟩ "Dune " 1
        (NetResult.success [docDune])).state " dUNE" 2
        NetResult.failure).state =
      (fetchBooks ⟨[], none⟩ "Dune " 1 (NetResult.success [docDune])).state
    ∧ (fetchBooks (fetchBooks ⟨[], none⟩ "Dune " 1
        (NetResult.success [docDune])).state " dUNE" 2
        NetResult.failure).openSet = true :=
  ⟨(fetchBooks_cache_idempotent ⟨[], none⟩ "Dune " " dUNE" 1 2 [docDune]
      NetResult.failure (by decide)).1,
   (fetchBooks_cache_idempotent ⟨[], none⟩ "Dune " " dUNE" 1 2 [docDune]
      NetResult.failure (by decide)).2.1,
   (fetchBooks_cache_idempotent ⟨[], none⟩ "Dune " " dUNE" 1 2 [docDune]
      NetResult.failure (by decide)).2.2.1,
   (fetchBooks_cache_idempotent ⟨[], none⟩ "Dune " " dUNE" 1 2 [docDune]
      NetResult.failure (by decide)).2.2.2.1⟩

/-! ### The debounced input handler -/

/-- The component state touched by `handleInputChange`: the controlled
query, active suggestion index, suggestion list, dropdown and loading
flags, and the pending debounce timer (carrying the value the scheduled
`fetchBooks` call will receive). -/
structure InputState where
  query : String
  activeIndex : Int
  suggestions : List Suggestion
  isOpen : Bool
  isLoading : Bool
  pending : Option String
deriving DecidableEq, Repr

/-- The result of one `handleInputChange` call: the successor state,
whether a previously pending debounce timer was cleared, and the delay in
milliseconds of the newly scheduled search, if any. -/
structure InputChangeResult where
  state : InputState
  clearedTimer : Bool
  scheduledDelayMs : Option Nat
deriving DecidableEq, Repr

/-- `handleInputChange` from BookAutocomplete.jsx, lines 229–254: store the
value, reset the active index, clear any pending debounce timer; for a
trimmed value shorter than 2 characters reset suggestions, dropdown and
loading and schedule nothing; otherwise start loading and schedule a
`fetchBooks(value)` call 200 ms later. -/
def handleInputChange (st : InputState) (value : String) : InputChangeResult :=
  let cleared := st.pending.isSome
  if (jsTrim value.data).length < 2 then
    { state :=
        { st with
          query := value
          activeIndex := -1
          suggestions := []
          isOpen := false
          isLoading := false
          pending := none }
      clearedTimer := cleared
      scheduledDelayMs := none }
  else
    { state :=
        { st with
          query := value
          activeIndex := -1
          isLoading := true
          pending := some value }
      clearedTimer := cleared
      scheduledDelayMs := some 200 }

/-- C6: every `handleInputChange` call first clears any pending debounce
timer (so at most one is ever pending); for a trimmed value of length < 2
it clears the suggestions, closes the dropdown, stops loading and schedules
no search; otherwise it schedules exactly one search to fire 200 ms later;
consequently a pending search query always has trimmed length at least 2. -/
theorem handleInputChange_spec (st : InputState) (value : String) :
    (handleInputChange st value).clearedTimer = st.pending.isSome
    ∧ ((jsTrim value.data).length < 2 →
        (handleInputChange st value).state.suggestions = []
        ∧ (handleInputChange st value).state.isOpen = false
        ∧ (handleInputChange st value).state.isLoading = false
        ∧ (handleInputChange st value).state.pending = none
        ∧ (handleInputChange st value).scheduledDelayMs = none)
    ∧ (2 ≤ (jsTrim value.data).length →
        (handleInputChange st value).state.pending = some value
        ∧ (handleInputChange st value).scheduledDelayMs = some 200
        ∧ (handleInputChange st value).state.isLoading = true)
    ∧ (∀ qv, (handleInputChange st value).state.pending = some qv →
        2 ≤ (jsTrim qv.data).length) := by
  by_cases h : (jsTrim value.data).length < 2
  · refine ⟨by simp [handleInputChange, h], fun _ => ?_, fun h2 => ?_, ?_⟩
    · simp [handleInputChange, h]
    · omega
    · intro qv hqv
      simp [handleInputChange, h] at hqv
  · refine ⟨by simp [handleInputChange, h], fun h2 => ?_, fun _ => ?_, ?_⟩
    · omega
    · simp [handleInputChange, h]
    · intro qv hqv
      simp [handleInputChange, h] at hqv
      subst hqv
      omega

theorem handleInputChange_spec_witness :
    (handleInputChange ⟨"d", -1, [], false, false, some "d"⟩
        "du").state.pending = some "du"
    ∧ (handleInputChange ⟨"d", -1, [], false, false, some "d"⟩
        "du").scheduledDelayMs = some 200
    ∧ (handleInputChange ⟨"d", -1, [], false, false, some "d"⟩
        "du").state.isLoading = true :=
  (handleInputChange_spec ⟨"d", -1, [], false, false, some "d"⟩ "du").2.2.1
    (by decide)

/-! ### The typewriter placeholder effect -/

/-- The placeholder text the typewriter animation cycles through. -/
def TYPEWRITER_TEXT : String := "Search for any book..."

/-- Milliseconds per character while typing. -/
def TYPING_SPEED : Nat := 80

/-- Milliseconds per character while deleting. -/
def DELETING_SPEED : Nat := 40

/-- Pause after the text is fully typed. -/
def PAUSE_AFTER_TYPE : Nat := 2000

/-- Pause after the text is fully deleted. -/
def PAUSE_AFTER_DELETE : Nat := 500

/-- The typewriter animation state: the displayed placeholder and the
current phase. -/
structure TypewriterState where
  displayPlaceholder : String
  isTyping : Bool
deriving DecidableEq, Repr

/-- One firing of the typewriter effect (BookAutocomplete.jsx lines
98–131): `none` when the effect is suspended (non-empty query or focused
input, where no timeout is scheduled); otherwise the state set by the
scheduled timeout together with its delay in milliseconds. -/
def typewriterStep (query : String) (isFocused : Bool) (s : TypewriterState) :
    Option (TypewriterState × Nat) :=
  if 0 < query.length || isFocused then none
  else if s.isTyping then
    if s.displayPlaceholder.length < TYPEWRITER_TEXT.length then
      let grown := String.mk (TYPEWRITER_TEXT.data.take (s.displayPlaceholder.length + 1))
      some ({ s with displayPlaceholder := grown }, TYPING_SPEED)
    else
      some ({ s with isTyping := false }, PAUSE_AFTER_TYPE)
  else
    if 0 < s.displayPlaceholder.length then
      let shrunk := String.mk s.displayPlaceholder.data.dropLast
      some ({ s with displayPlaceholder := shrunk }, DELETING_SPEED)
    else
      some ({ s with isTyping := true }, PAUSE_AFTER_DELETE)

/-- C7: the typewriter effect is suspended exactly while the query is
non-empty or the input focused; otherwise, in the typing phase the
placeholder grows by one character (a longer initial segment of
`TYPEWRITER_TEXT`) until complete and then pauses 2000 ms before switching
to deleting; in the deleting phase it shrinks by one character until empty
and then pauses 500 ms before switching back to typing; and being an
initial segment of `TYPEWRITER_TEXT` is invariant under every step. -/
theorem typewriter_spec (query : String) (isFocused : Bool)
    (s : TypewriterState)
    (hpre : s.displayPlaceholder.data <+: TYPEWRITER_TEXT.data) :
    ((0 < query.length ∨ isFocused = true) →
        typewriterStep query isFocused s = none)
    ∧ (∀ s2 d, typewriterStep query isFocused s = some (s2, d) →
        s2.displayPlaceholder.data <+: TYPEWRITER_TEXT.data)
    ∧ (query = "" → isFocused = false → s.isTyping = true →
        s.displayPlaceholder.length < TYPEWRITER_TEXT.length →
        ∃ s2, typewriterStep query isFocused s = some (s2, TYPING_SPEED)
          ∧ s2.displayPlaceholder.data =
              TYPEWRITER_TEXT.data.take (s.displayPlaceholder.length + 1)
          ∧ s2.displayPlaceholder.length = s.displayPlaceholder.length + 1
          ∧ s2.isTyping = true)
    ∧ (query = "" → isFocused = false → s.isTyping = true →
        TYPEWRITER_TEXT.length ≤ s.displayPlaceholder.length →
        typewriterStep query isFocused s =
          some ({ s with isTyping := false }, PAUSE_AFTER_TYPE))
    ∧ (query = "" → isFocused = false → s.isTyping = false →
        0 < s.displayPlaceholder.length →
        ∃ s2, typewriterStep query isFocused s = some (s2, DELETING_SPEED)
          ∧ s2.displayPlaceholder.data = s.displayPlaceholder.data.dropLast
          ∧ s2.displayPlaceholder.length = s.displayPlaceholder.length - 1
          ∧ s2.isTyping = false)
    ∧ (query = "" → isFocused = false → s.isTyping = false →
        s.displayPlaceholder.length = 0 →
        typewriterStep query isFocused s =
          some ({ s with isTyping := true }, PAUSE_AFTER_DELETE)) := by
  refine ⟨?_, ?_, ?_, ?_, ?_, ?_⟩
  · intro h
    rcases h with h | h
    · simp [typewriterStep, h]
    · simp [typewriterStep, h]
  · intro s2 d hstep
    simp only [typewriterStep] at hstep
    split_ifs at hstep with h1 h2 h3 h4 <;>
      simp only [Option.some.injEq, Prod.mk.injEq] at hstep
    · obtain ⟨rfl, -⟩ := hstep
      exact ⟨TYPEWRITER_TEXT.data.drop (s.displayPlaceholder.length + 1),
        List.take_append_drop _ _⟩
    · obtain ⟨rfl, -⟩ := hstep
      exact hpre
    · obtain ⟨rfl, -⟩ := hstep
      refine List.IsPrefix.trans ?_ hpre
      rw [List.dropLast_eq_take]
      exact ⟨s.displayPlaceholder.data.drop
        (s.displayPlaceholder.data.length - 1), List.take_append_drop _ _⟩
    · obtain ⟨rfl, -⟩ := hstep
      exact hpre
  · intro hq hf ht hlt
    obtain ⟨ph, ty⟩ := s
    subst ht
    refine ⟨⟨String.mk (TYPEWRITER_TEXT.data.take (ph.length + 1)), true⟩,
      ?_, rfl, ?_, rfl⟩
    · simp only at hlt
      simp [typewriterStep, hq, hf, hlt]
    · simp only [String.length, String.mk]
      rw [List.length_take]
      simp only [String.length] at hlt ⊢
      omega
  · intro hq hf ht hge
    have hnlt : ¬ s.displayPlaceholder.length < TYPEWRITER_TEXT.length := by
      omega
    simp [typewriterStep, hq, hf, ht, hnlt]
  · intro hq hf ht hpos
    obtain ⟨ph, ty⟩ := s
    subst ht
    refine ⟨⟨String.mk ph.data.dropLast, false⟩, ?_, rfl, ?_, rfl⟩
    · simp only at hpos
      simp [typewriterStep, hq, hf, hpos]
    · simp only [String.length, String.mk]
      rw [List.length_dropLast]
  · intro hq hf ht hzero
    simp [typewriterStep, hq, hf, ht, hzero]

theorem typewriter_spec_witness :
    ∃ s2, typewriterStep "" false ⟨"Search", true⟩ = some (s2, TYPING_SPEED)
      ∧ s2.displayPlaceholder.data = TYPEWRITER_TEXT.data.take 7
      ∧ s2.displayPlaceholder.length = 7
      ∧ s2.isTyping = true :=
  (typewriter_spec "" false ⟨"Search", true⟩ (by decide)).2.2.1
    rfl rfl rfl (by decide)

/-! ### Routing and the home screen -/

/-- The three routed pages of main.jsx. -/
inductive Page where
  | home
  | bookDetails
  | audioPlayer
deriving DecidableEq, Repr

/-- The route table of main.jsx, lines 12–16. -/
def routeTable : List (String × Page) :=
  [("/", Page.home), ("/book", Page.bookDetails), ("/player", Page.audioPlayer)]

/-- A `navigate(path, { state: { book } })` call as issued by the home
screen. -/
structure Navigation where
  path : String
  bookState : Option Suggestion
deriving DecidableEq, Repr

/-- `handleBookSelect` from App.jsx: navigate to "/book" with the selected
book in the navigation state. -/
def handleBookSelect (book : Suggestion) : Navigation := ⟨"/book", some book⟩

/-- A rendered view tree, restricted to what the routing claim needs:
ordinary elements, text, and the `BookAutocomplete` widget with its
`onSelect` handler. -/
inductive Node where
  | el (tag : String) (children : List Node)
  | textNode (s : String)
  | autocomplete (onSelect : Suggestion → Navigation)

/-- The home screen (App.jsx): the title, the tagline and the search
container embedding `BookAutocomplete` with `handleBookSelect` as the
selection handler. -/
def appView : Node :=
  Node.el "homepage"
    [Node.el "content"
      [Node.el "title" [Node.textNode "Podcastify"],
       Node.el "tagline" [Node.textNode "Convert any book into a podcast"],
       Node.el "search-container" [Node.autocomplete handleBookSelect]]]

mutual

/-- Collect the selection handlers of every autocomplete widget in a view
tree, in render order. -/
def autocompleteHandlers : Node → List (Suggestion → Navigation)
  | .el _ children => autocompleteHandlersOf children
  | .textNode _ => []
  | .autocomplete h => [h]

/-- Collect the selection handlers of a list of sibling nodes. -/
def autocompleteHandlersOf : List Node → List (Suggestion → Navigation)
  | [] => []
  | n :: ns => autocompleteHandlers n ++ autocompleteHandlersOf ns

end

/-- C8: the application consists of exactly the three routed views
"/" (home), "/book" (book details) and "/player" (player); the home screen
embeds exactly one search widget (`BookAutocomplete`), and its selection
handler navigates to "/book" carrying the selected book in the navigation
state. -/
theorem routing_spec :
    routeTable.map Prod.fst = ["/", "/book", "/player"]
    ∧ routeTable.length = 3
    ∧ routeTable.lookup "/" = some Page.home
    ∧ routeTable.lookup "/book" = some Page.bookDetails
    ∧ routeTable.lookup "/player" = some Page.audioPlayer
    ∧ autocompleteHandlers appView = [handleBookSelect]
    ∧ ∀ b : Suggestion, handleBookSelect b =
        { path := "/book", bookState := some b } := by
  refine ⟨rfl, rfl, rfl, rfl, rfl, ?_, fun b => rfl⟩
  simp [autocompleteHandlers, autocompleteHandlersOf, appView]

/-! ### The sequential endpoint orchestration of `handleSummary` -/

/-- The find-pdf response, restricted to the fields the frontend reads. -/
structure PdfData where
  cached : Bool
  pages : Int
deriving DecidableEq, Repr

/-- The extract-chapter response, restricted to the fields the frontend
reads. -/
structure ChapterData where
  cached : Bool
  start_page : Int
  end_page : Int
deriving DecidableEq, Repr

/-- The generate-script response, restricted to the fields the frontend
reads. -/
structure ScriptData where
  script : String
  naval_lines : Int
  chris_lines : Int
deriving DecidableEq, Repr

/-- The outcome of one endpoint call as observed by `handleSummary`:
`ok` is a parsed 2xx response; `httpError detail` a non-ok response whose
JSON body carries an optional `detail` message; `thrown` a fetch or parse
error with its message. -/
inductive EndpointResult (α : Type) where
  | ok (data : α)
  | httpError (detail : Option String)
  | thrown (message : String)
deriving DecidableEq, Repr

/-- Whether the endpoint call produced an ok response. -/
def EndpointResult.isOk {α : Type} : EndpointResult α → Bool
  | .ok _ => true
  | _ => false

/-- `error.detail || fallback` (an empty detail string is falsy and also
falls back). -/
def errDetailOr (detail : Option String) (fallback : String) : String :=
  match detail with
  | some d => if d = "" then fallback else d
  | none => fallback

/-- The message of the error `handleSummary` catches for a failed call:
`new Error(error.detail || fallback)` for a non-ok response, the thrown
error message otherwise. -/
def EndpointResult.errorMessage {α : Type} (fallback : String) :
    EndpointResult α → Option String
  | .ok _ => none
  | .httpError detail => some (errDetailOr detail fallback)
  | .thrown message => some message

/-- The three endpoint responses a `handleSummary` run may consume. -/
structure SummaryEnv where
  findPdf : EndpointResult PdfData
  extractChapter : EndpointResult ChapterData
  generateScript : EndpointResult ScriptData
deriving DecidableEq, Repr

/-- The endpoints, named in the order `handleSummary` calls them. -/
inductive Endpoint where
  | findPdf
  | extractChapter
  | generateScript
deriving DecidableEq, Repr

/-- The navigation state passed to the player page on success
(`{ book, pdfInfo, chapterInfo, scriptInfo }`). -/
structure PlayerNavState where
  book : Suggestion
  pdfInfo : PdfData
  chapterInfo : ChapterData
  scriptInfo : ScriptData
deriving DecidableEq, Repr

/-- The observable result of one `handleSummary` run: the endpoint calls
made (in order), the navigation performed, the stored error message and the
final searching flag. -/
structure SummaryRun where
  calls : List Endpoint
  navigated : Option PlayerNavState
  downloadError : Option String
  isSearching : Bool
deriving DecidableEq, Repr

/-- `handleSummary` from BookDetails.jsx, lines 270–355: call find-pdf,
then (only on ok) extract-chapter, then (only on ok) generate-script; on
full success navigate to the player carrying the three responses (the
searching flag is still set when navigation happens); on the first failure
store the error message and reset the searching flag. -/
def handleSummary (book : Suggestion) (env : SummaryEnv) : SummaryRun :=
  match env.findPdf with
  | .ok pdfData =>
    match env.extractChapter with
    | .ok chapterData =>
      match env.generateScript with
      | .ok scriptData =>
        { calls := [.findPdf, .extractChapter, .generateScript]
          navigated := some ⟨book, pdfData, chapterData, scriptData⟩
          downloadError := none
          isSearching := true }
      | e =>
        { calls := [.findPdf, .extractChapter, .generateScript]
          navigated := none
          downloadError := e.errorMessage "Failed to generate script"
          isSearching := false }
    | e =>
      { calls := [.findPdf, .extractChapter]
        navigated := none
        downloadError := e.errorMessage "Failed to extract chapter"
        isSearching := false }
  | e =>
    { calls := [.findPdf]
      navigated := none
      downloadError := e.errorMessage "Failed to find book"
      isSearching := false }

/-- C3: `handleSummary` calls the endpoints strictly in the order find-pdf,
extract-chapter, generate-script — each later endpoint is called exactly
when every earlier one returned ok — and navigation to the player happens
exactly when all three succeed, carrying the three responses (and the
book) in the navigation state. -/
theorem handleSummary_sequential (book : Suggestion) (env : SummaryEnv) :
    ((handleSummary book env).calls = [Endpoint.findPdf]
      ∨ (handleSummary book env).calls =
          [Endpoint.findPdf, Endpoint.extractChapter]
      ∨ (handleSummary book env).calls =
          [Endpoint.findPdf, Endpoint.extractChapter, Endpoint.generateScript])
    ∧ (Endpoint.extractChapter ∈ (handleSummary book env).calls ↔
        env.findPdf.isOk = true)
    ∧ (Endpoint.generateScript ∈ (handleSummary book env).calls ↔
        env.findPdf.isOk = true ∧ env.extractChapter.isOk = true)
    ∧ (∀ p c sc, env.findPdf = .ok p → env.extractChapter = .ok c →
        env.generateScript = .ok sc →
        (handleSummary book env).navigated = some ⟨book, p, c, sc⟩)
    ∧ ((handleSummary book env).navigated.isSome = true ↔
        env.findPdf.isOk = true ∧ env.extractChapter.isOk = true ∧
          env.generateScript.isOk = true) := by
  obtain ⟨f, e, g⟩ := env
  cases f <;> cases e <;> cases g <;>
    simp [handleSummary, EndpointResult.isOk]

theorem handleSummary_sequential_witness :
    (handleSummary (mapBook "dune" docDune)
        ⟨EndpointResult.ok ⟨false, 412⟩, EndpointResult.ok ⟨false, 9, 31⟩,
          EndpointResult.ok ⟨"Naval: Hi.", 1, 0⟩⟩).navigated =
      some ⟨mapBook "dune" docDune, ⟨false, 412⟩, ⟨false, 9, 31⟩,
        ⟨"Naval: Hi.", 1, 0⟩⟩ :=
  (handleSummary_sequential (mapBook "dune" docDune)
      ⟨EndpointResult.ok ⟨false, 412⟩, EndpointResult.ok ⟨false, 9, 31⟩,
        EndpointResult.ok ⟨"Naval: Hi.", 1, 0⟩⟩).2.2.2.1
    ⟨false, 412⟩ ⟨false, 9, 31⟩ ⟨"Naval: Hi.", 1, 0⟩ rfl rfl rfl

/-- C4: when any of the three endpoint calls fails, the only recovery is
displaying the error string: the message is stored, the searching flag is
reset, no navigation to the player happens, and no endpoint is called
twice (no retry). -/
theorem handleSummary_error_handling (book : Suggestion) (env : SummaryEnv)
    (hfail : ¬(env.findPdf.isOk = true ∧ env.extractChapter.isOk = true ∧
        env.generateScript.isOk = true)) :
    (handleSummary book env).navigated = none
    ∧ (handleSummary book env).isSearching = false
    ∧ (∃ m, (handleSummary book env).downloadError = some m)
    ∧ (handleSummary book env).calls.Nodup
    ∧ (env.findPdf.isOk = false →
        (handleSummary book env).downloadError =
          env.findPdf.errorMessage "Failed to find book")
    ∧ (env.findPdf.isOk = true → env.extractChapter.isOk = false →
        (handleSummary book env).downloadError =
          env.extractChapter.errorMessage "Failed to extract chapter")
    ∧ (env.findPdf.isOk = true → env.extractChapter.isOk = true →
        env.generateScript.isOk = false →
        (handleSummary book env).downloadError =
          env.generateScript.errorMessage "Failed to generate script") := by
  obtain ⟨f, e, g⟩ := env
  cases f <;> cases e <;> cases g <;>
    simp [handleSummary, EndpointResult.isOk,
      EndpointResult.errorMessage] at hfail ⊢

theorem handleSummary_error_handling_witness :
    (handleSummary (mapBook "dune" docDune)
        ⟨EndpointResult.ok ⟨false, 412⟩,
          EndpointResult.httpError (some "No chapter boundary found"),
          EndpointResult.thrown "unreached"⟩).navigated = none
    ∧ (handleSummary (mapBook "dune" docDune)
        ⟨EndpointResult.ok ⟨false, 412⟩,
          EndpointResult.httpError (some "No chapter boundary found"),
          EndpointResult.thrown "unreached"⟩).isSearching = false
    ∧ (∃ m, (handleSummary (mapBook "dune" docDune)
        ⟨EndpointResult.ok ⟨false, 412⟩,
          EndpointResult.httpError (some "No chapter boundary found"),
          EndpointResult.thrown "unreached"⟩).downloadError = some m)
    ∧ (handleSummary (mapBook "dune" docDune)
        ⟨EndpointResult.ok ⟨false, 412⟩,
          EndpointResult.httpError (some "No chapter boundary found"),
          EndpointResult.thrown "unreached"⟩).calls.Nodup :=
  ⟨(handleSummary_error_handling (mapBook "dune" docDune)
      ⟨EndpointResult.ok ⟨false, 412⟩,
        EndpointResult.httpError (some "No chapter boundary found"),
        EndpointResult.thrown "unreached"⟩ (by decide)).1,
   (handleSummary_error_handling (mapBook "dune" docDune)
      ⟨EndpointResult.ok ⟨false, 412⟩,
        EndpointResult.httpError (some "No chapter boundary found"),
        EndpointResult.thrown "unreached"⟩ (by decide)).2.1,
   (handleSummary_error_handling (mapBook "dune" docDune)
      ⟨EndpointResult.ok ⟨false, 412⟩,
        EndpointResult.httpError (some "No chapter boundary found"),
        EndpointResult.thrown "unreached"⟩ (by decide)).2.2.1,
   (handleSummary_error_handling (mapBook "dune" docDune)
      ⟨EndpointResult.ok ⟨false, 412⟩,
        EndpointResult.httpError (some "No chapter boundary found"),
        EndpointResult.thrown "unreached"⟩ (by decide)).2.2.2.1⟩

/-! ### `parseScript` -/

/-- One parsed dialogue line of the podcast script. -/
structure Dialogue where
  speaker : String
  text : String
deriving DecidableEq, Repr

/-- JS `str.split(sep)` for a single-character separator: split at every
occurrence, keeping the (possibly empty) chunks between occurrences. -/
def splitOnChar (sep : Char) : List Char → List Char → List (List Char)
  | [], acc => [acc.reverse]
  | c :: cs, acc =>
    if c = sep then acc.reverse :: splitOnChar sep cs []
    else splitOnChar sep cs (c :: acc)

/-- Match `/^Naval:\s*(.+)/i` (and the Chris analogue) against a line with
no newline in it: the tag must start the line case-insensitively and at
least one character must follow it; the captured group is the remainder
with its leading whitespace removed, except that for an all-whitespace
remainder the greedy `\s*` backs off and the capture is the final
character. -/
def dialogueCapture (tag : List Char) (line : String) : Option String :=
  if List.isPrefixOf tag (jsLower line.data) then
    let rest := line.data.drop tag.length
    if rest = [] then none
    else
      let stripped := rest.dropWhile Char.isWhitespace
      if stripped = [] then some (String.mk (rest.drop (rest.length - 1)))
      else some (String.mk stripped)
  else none

/-- One iteration of the parse loop of `parseScript` (AudioPlayer.jsx lines
45–60): a Naval line appends a Naval entry, a Chris line a Chris entry; any
other line that trims non-empty and does not start with `=` is appended to
the text of the last entry when one exists, and dropped otherwise. -/
def parseLine (dialogues : List Dialogue) (line : String) : List Dialogue :=
  match dialogueCapture "naval:".data line with
  | some t => dialogues ++ [⟨"Naval", t⟩]
  | none =>
    match dialogueCapture "chris:".data line with
    | some t => dialogues ++ [⟨"Chris", t⟩]
    | none =>
      if jsTrim line.data ≠ [] && !(jsStartsWith line.data "=".data) then
        match dialogues.getLast? with
        | some last =>
          dialogues.dropLast ++
            [⟨last.speaker, last.text ++ " " ++ String.mk (jsTrim line.data)⟩]
        | none => dialogues
      else dialogues

/-- `parseScript` from AudioPlayer.jsx, lines 39–63.  The argument is
`none` for a null script; `if (!script) return []` also catches the empty
string.  The script is split at newlines, blank lines are dropped, and the
remaining lines are folded through `parseLine`. -/
def parseScript (script : Option String) : List Dialogue :=
  match script with
  | none => []
  | some s =>
    if s = "" then []
    else
      let lines := (splitOnChar '\n' s.data []).filter (fun l => jsTrim l ≠ [])
      lines.foldl (fun ds l => parseLine ds (String.mk l)) []

theorem parseLine_speakers (ds : List Dialogue) (line : String)
    (h : ∀ d ∈ ds, d.speaker = "Naval" ∨ d.speaker = "Chris") :
    ∀ d ∈ parseLine ds line, d.speaker = "Naval" ∨ d.speaker = "Chris" := by
  intro d hd
  simp only [parseLine] at hd
  rcases hn : dialogueCapture "naval:".data line with _ | t <;>
    rw [hn] at hd
  · rcases hc : dialogueCapture "chris:".data line with _ | t <;>
      rw [hc] at hd
    · split_ifs at hd with hcond
      · rcases hlast : ds.getLast? with _ | last <;> rw [hlast] at hd
        · exact h d hd
        · rcases List.mem_append.mp hd with hd' | hd'
          · exact h d ((List.dropLast_sublist ds).subset hd')
          · have hds : last ∈ ds := List.mem_of_getLast?_eq_some hlast
            have := h last hds
            simp only [List.mem_singleton] at hd'
            subst hd'
            exact this
      · exact h d hd
    · rcases List.mem_append.mp hd with hd' | hd'
      · exact h d hd'
      · simp only [List.mem_singleton] at hd'
        subst hd'
        right
        rfl
  · rcases List.mem_append.mp hd with hd' | hd'
    · exact h d hd'
    · simp only [List.mem_singleton] at hd'
      subst hd'
      left
      rfl

theorem foldl_parseLine_speakers (lines : List (List Char)) :
    ∀ ds : List Dialogue,
      (∀ d ∈ ds, d.speaker = "Naval" ∨ d.speaker = "Chris") →
      ∀ d ∈ lines.foldl (fun ds l => parseLine ds (String.mk l)) ds,
        d.speaker = "Naval" ∨ d.speaker = "Chris" := by
  induction lines with
  | nil =>
    intro ds h d hd
    exact h d hd
  | cons l ls ih =>
    intro ds h d hd
    exact ih _ (parseLine_speakers ds (String.mk l) h) d hd

/-- C10: every parsed dialogue entry is spoken by exactly "Naval" or
"Chris"; a null or empty script parses to the empty list; a line matching
`Naval:` (or `Chris:`) case-insensitively starts a new entry whose text is
the captured remainder; any other line whose trim is non-empty and which
does not start with `=` extends the text of the most recent entry when one
exists and is discarded otherwise; every remaining line leaves the parsed
list unchanged. -/
theorem parseScript_spec :
    (∀ script, ∀ d ∈ parseScript script,
        d.speaker = "Naval" ∨ d.speaker = "Chris")
    ∧ parseScript none = []
    ∧ parseScript (some "") = []
    ∧ (∀ ds line t, dialogueCapture "naval:".data line = some t →
        parseLine ds line = ds ++ [⟨"Naval", t⟩])
    ∧ (∀ ds line t, dialogueCapture "naval:".data line = none →
        dialogueCapture "chris:".data line = some t →
        parseLine ds line = ds ++ [⟨"Chris", t⟩])
    ∧ (∀ line, dialogueCapture "naval:".data line = none →
        dialogueCapture "chris:".data line = none →
        jsTrim line.data ≠ [] → jsStartsWith line.data "=".data = false →
        parseLine [] line = []
        ∧ ∀ ds (last : Dialogue), ds.getLast? = some last →
            parseLine ds line = ds.dropLast ++
              [⟨last.speaker,
                last.text ++ " " ++ String.mk (jsTrim line.data)⟩])
    ∧ (∀ ds line, dialogueCapture "naval:".data line = none →
        dialogueCapture "chris:".data line = none →
        (jsTrim line.data = [] ∨ jsStartsWith line.data "=".data = true) →
        parseLine ds line = ds) := by
  refine ⟨?_, rfl, rfl, ?_, ?_, ?_, ?_⟩
  · intro script d hd
    match script with
    | none => simp [parseScript] at hd
    | some s =>
      simp only [parseScript] at hd
      split_ifs at hd with hs
      · simp at hd
      · exact foldl_parseLine_speakers _ [] (by simp) d hd
  · intro ds line t hn
    simp [parseLine, hn]
  · intro ds line t hn hc
    simp [parseLine, hn, hc]
  · intro line hn hc htrim hstart
    constructor
    · simp [parseLine, hn, hc, htrim, hstart]
    · intro ds last hlast
      simp [parseLine, hn, hc, htrim, hstart, hlast]
  · intro ds line hn hc hother
    rcases hother with h | h
    · simp [parseLine, hn, hc, h]
    · simp [parseLine, hn, hc, h]

theorem parseScript_spec_witness :
    parseScript none = [] ∧
      parseLine [] "NAVAL:   Welcome back." =
        [⟨"Naval", "Welcome back."⟩] :=
  ⟨parseScript_spec.2.1,
    parseScript_spec.2.2.2.1 [] "NAVAL:   Welcome back." "Welcome back."
      (by decide)⟩

end Podcastify
